import Mathlib

set_option maxRecDepth 16384

/-!
Verification development for the desktop-shadertoy-overlay repository.

The development shallowly embeds the renderer-side shader pipeline
(`src/src/renderer.ts`: `ShaderRenderer`, `ShaderManager`, `App`), the
main-process window module (`src/electron/window.ts`) and the configuration
module (`src/unnamed/part_007`, the `config.ts` loaded by `window.ts`).

Modelling conventions:
- the insertion-ordered JavaScript `Map` backing the shader catalog is an
  association list with JavaScript `Map.set` semantics (`mapSet`, `mapGet`);
- GPU program handles are natural numbers handed out by a counter; deleting a
  program appends its handle to a `deleted` list so that claims about
  deletion order are expressible;
- shader compilation/linking (`createShaderProgram`) is an oracle
  `progOk : WrappedShader -> Bool` because its outcome depends on the GPU
  driver; all control flow around it is modelled concretely;
- file reads and network fetches are oracles `String -> Option String`
  (`none` models a thrown error or a non-ok response);
- the regex-based extraction strategies applied to a fetched Shadertoy page
  are oracles, while the URL dissection guard that runs before any network
  access is modelled concretely from the regex in the source.
-/

/-! ## List-of-characters string helpers -/

/-- Boolean test that `pat` is a leading segment of `l`. -/
def listStarts : List Char → List Char → Bool
  | [], _ => true
  | _ :: _, [] => false
  | a :: as, b :: bs => a == b && listStarts as bs

/-- Boolean test that `pat` occurs as a contiguous run somewhere in the list. -/
def listInf (pat : List Char) : List Char → Bool
  | [] => listStarts pat []
  | c :: t => listStarts pat (c :: t) || listInf pat t

/-- String `s` contains `pat` as a substring (JavaScript `String.includes`). -/
def hasSubstr (s pat : String) : Bool := listInf pat.data s.data

/-- String `s` starts with `pre` (JavaScript `String.startsWith`). -/
def strStarts (s pre : String) : Bool := listStarts pre.data s.data

/-- Drop the five characters of the `file-` marker from a shader id
(`id.replace('file-', '')` in the source; on ids that start with `file-`
the first occurrence is the leading one, so this is a five-character drop). -/
def dropFile (id : String) : String := String.mk (id.data.drop 5)

/-- Directory-entry test from `ShaderManager.loadShadersFromDirectory`:
`id.startsWith('file-') && !id.includes('shadertoy-')`. -/
def isDirId (id : String) : Bool := strStarts id "file-" && !(hasSubstr id "shadertoy-")

/-- Last path segment, as produced by `filePath.split(/[/\\]/).pop()`:
scan the characters, restarting the accumulator at every separator. -/
def lastSeg : List Char → List Char → List Char
  | [], acc => acc.reverse
  | c :: rest, acc =>
    if c == '/' || c == '\\' then lastSeg rest [] else lastSeg rest (c :: acc)

/-- Strip a trailing dot extension (`name.replace(/\.[^/.]+$/, '')`):
remove the last dot and what follows it when that tail is a nonempty run of
characters other than dot and slash. -/
def stripExt (l : List Char) : List Char :=
  let r := l.reverse
  let suf := r.takeWhile (fun c => !(c == '.') && !(c == '/'))
  match r.drop suf.length with
  | '.' :: rest => if suf.isEmpty then l else rest.reverse
  | _ => l

/-- Display name computed by `ShaderManager.loadFromFilePath`: basename of the
path (or `shader` when empty) with its extension stripped. -/
def baseNameNoExt (p : String) : String :=
  let seg := lastSeg p.data []
  let seg := if seg.isEmpty then "shader".data else seg
  String.mk (stripExt seg)

/-! ## Program Builder (`ShaderRenderer.wrapShadertoyShader`) -/

/-- Vertex and fragment sources produced by the wrapper; the source bundles
them through `JSON.stringify` and `createShaderProgram` immediately parses
the bundle back, so the pair is modelled directly. -/
structure WrappedShader where
  vertex : String
  fragment : String
deriving DecidableEq

/-- Fixed uniform block of `wrapShadertoyShader`, transcribed byte for byte
from the `uniforms` template literal. -/
def shadertoyUniforms : String :=
  "\n      uniform float iTime;\n      uniform float iTimeDelta;\n      uniform vec3 iResolution;\n      uniform vec4 iMouse;\n      uniform sampler2D iChannel0;\n      uniform sampler2D iChannel1;\n      uniform sampler2D iChannel2;\n      uniform sampler2D iChannel3;\n      uniform vec3 iChannelResolution[4];\n    "

/-- Fixed vertex stage of the wrapper (fullscreen quad, no user code). -/
def vertexShaderSrc : String :=
  "\n      attribute vec2 a_position;\n      void main() \x7b\n        gl_Position = vec4(a_position, 0.0, 1.0);\n      \x7d\n    "

/-- Fixed text the wrapper places before the user body: precision directive
followed by the uniform block and blank separator lines. -/
def fragPre : String :=
  "\n      precision highp float;\n      " ++ shadertoyUniforms ++ "\n      \n      "

/-- Fixed entry point the wrapper places after the user body; it calls
`mainImage` and assigns the resulting vector to `gl_FragColor` unmodified. -/
def fragPost : String :=
  "\n      \n      void main() \x7b\n        vec4 color;\n        mainImage(color, gl_FragCoord.xy);\n        // Don\x27t modify alpha here - we\x27ll use CSS opacity instead\n        // This works better with Electron\x27s transparent windows on Windows\n        gl_FragColor = color;\n      \x7d\n    "

/-- Model of `ShaderRenderer.wrapShadertoyShader`: the body text is injected
verbatim between the fixed uniform block and the fixed entry point. -/
def wrapShadertoyShader (shaderCode : String) : WrappedShader :=
  { vertex := vertexShaderSrc
    fragment :=
      "\n      precision highp float;\n      " ++ shadertoyUniforms ++ "\n      \n      "
        ++ shaderCode ++ fragPost }

/-! ## Render side (`ShaderRenderer`) -/

/-- Renderer state: the owned GPU program (a handle), the source text it was
built from, the handles deleted so far, and the handle counter. -/
structure RendererState where
  program : Option Nat
  currentShader : String
  deleted : List Nat
  nextHandle : Nat
deriving DecidableEq

/-- Program drawn by `ShaderRenderer.render` each tick: the owned program. -/
def renderTarget (r : RendererState) : Option Nat := r.program

/-- Model of `ShaderRenderer.loadShader`: wrap the body, attempt to build a
program; on success delete the previous program (after the new one exists)
and install the new one; on failure catch the error, change nothing and
return `false`. -/
def loadShader (progOk : WrappedShader → Bool) (r : RendererState)
    (shaderCode : String) : RendererState × Bool :=
  let full := wrapShadertoyShader shaderCode
  if progOk full then
    ({ program := some r.nextHandle
       currentShader := shaderCode
       deleted := r.deleted ++ r.program.toList
       nextHandle := r.nextHandle + 1 }, true)
  else
    (r, false)

/-! ## Shader catalog (`ShaderManager`) -/

/-- Origin tag of a catalog entry (`'local' | 'shadertoy'`). -/
inductive SrcKind where
  | localSrc
  | shadertoySrc
deriving DecidableEq

/-- Value stored for one catalog id. -/
structure ShaderEntry where
  code : String
  name : String
  srcKind : SrcKind
deriving DecidableEq

/-- Lookup in an insertion-ordered association list (JavaScript `Map.get`). -/
def mapGet {β : Type} : List (String × β) → String → Option β
  | [], _ => none
  | (k, v) :: rest, x => if k = x then some v else mapGet rest x

/-- Insertion with JavaScript `Map.set` semantics: an existing key keeps its
position and gets the new value; a new key is appended at the end. -/
def mapSet {β : Type} : List (String × β) → String → β → List (String × β)
  | [], k, v => [(k, v)]
  | (k0, v0) :: rest, k, v =>
    if k0 = k then (k, v) :: rest else (k0, v0) :: mapSet rest k v

/-- Catalog state: ordered id-to-entry map, nullable current id, the owned
renderer, and the number of list-changed notifications emitted so far
(the `onShaderListChanged` callback is assumed registered, as `App` does). -/
structure ManagerState where
  shaders : List (String × ShaderEntry)
  currentShaderId : Option String
  renderer : RendererState
  notifyCount : Nat
deriving DecidableEq

/-- Model of `ShaderManager.addShader`: store the entry, then emit one
list-changed notification. -/
def addShader (m : ManagerState) (id code name : String) (k : SrcKind) : ManagerState :=
  { m with
    shaders := mapSet m.shaders id ⟨code, name, k⟩
    notifyCount := m.notifyCount + 1 }

/-- Model of `ShaderManager.selectShader`: an absent id returns `false` and
changes nothing; a present id first records the selection, then rebuilds via
the renderer, notifies, and returns the rebuild result. -/
def selectShader (progOk : WrappedShader → Bool) (m : ManagerState)
    (id : String) : ManagerState × Bool :=
  match mapGet m.shaders id with
  | some sh =>
    let m1 := { m with currentShaderId := some id }
    let rs := loadShader progOk m1.renderer sh.code
    ({ m1 with renderer := rs.1, notifyCount := m1.notifyCount + 1 }, rs.2)
  | none => (m, false)

/-- Model of `ShaderManager.loadFromFilePath` (with `electronAPI` available):
a successful read adds the entry under id `file-` + path and returns `true`;
a failed read is caught and returns `false` without mutation. -/
def loadFromFilePath (readFile : String → Option String) (m : ManagerState)
    (p : String) : ManagerState × Bool :=
  match readFile p with
  | some code => (addShader m ("file-" ++ p) code (baseNameNoExt p) .localSrc, true)
  | none => (m, false)

/-- Output of the first reconciliation loop: surviving entries, possibly
nulled current id, and the paths of entries that were confirmed present. -/
structure PruneOut where
  kept : List (String × ShaderEntry)
  cur : Option String
  loaded : List String
deriving DecidableEq

/-- First loop of `ShaderManager.loadShadersFromDirectory`: walk the catalog;
a directory entry whose backing file is gone is dropped (nulling the current
id when it was that entry) and a still-present one has its path recorded. -/
def pruneShaders (files : List String) :
    List (String × ShaderEntry) → Option String → PruneOut
  | [], cur => ⟨[], cur, []⟩
  | (id, sh) :: rest, cur =>
    if isDirId id then
      let p := dropFile id
      if p ∈ files then
        let out := pruneShaders files rest cur
        ⟨(id, sh) :: out.kept, out.cur, p :: out.loaded⟩
      else
        pruneShaders files rest (if cur = some id then none else cur)
    else
      let out := pruneShaders files rest cur
      ⟨(id, sh) :: out.kept, out.cur, out.loaded⟩

/-- Second loop of `ShaderManager.loadShadersFromDirectory`: every path not
recorded as already loaded is loaded via `loadFromFilePath` (each success
notifies, through `addShader`); the flag records whether any load succeeded. -/
def addNewShaders (readFile : String → Option String) (loaded : List String)
    (m : ManagerState) : List String → ManagerState × Bool
  | [] => (m, false)
  | p :: rest =>
    if p ∈ loaded then addNewShaders readFile loaded m rest
    else
      let lr := loadFromFilePath readFile m p
      if lr.2 then ((addNewShaders readFile loaded lr.1 rest).1, true)
      else addNewShaders readFile loaded lr.1 rest

/-- Steps of `ShaderManager.loadShadersFromDirectory` before auto-selection:
prune, add, recompute the removed-entry flag over the already-pruned catalog,
and emit one extra notification when something was added or flagged removed. -/
def reconcilePass (readFile : String → Option String) (files : List String)
    (m : ManagerState) : ManagerState :=
  let pr := pruneShaders files m.shaders m.currentShaderId
  let m1 := { m with shaders := pr.kept, currentShaderId := pr.cur }
  let ar := addNewShaders readFile pr.loaded m1 files
  let removedFlag :=
    ar.1.shaders.any (fun e => isDirId e.1 && !(decide (dropFile e.1 ∈ files)))
  if ar.2 || removedFlag then
    { ar.1 with notifyCount := ar.1.notifyCount + 1 }
  else ar.1

/-- Final step of `ShaderManager.loadShadersFromDirectory`: when nothing is
selected and the catalog is nonempty, select the first entry in order. -/
def autoSelectFirst (progOk : WrappedShader → Bool) (m : ManagerState) : ManagerState :=
  match m.currentShaderId with
  | some _ => m
  | none =>
    match m.shaders with
    | [] => m
    | (id0, _) :: _ => (selectShader progOk m id0).1

/-- Model of `ShaderManager.loadShadersFromDirectory` (one reconciliation
pass against the authoritative watched-file list). -/
def loadShadersFromDirectory (readFile : String → Option String)
    (progOk : WrappedShader → Bool) (files : List String)
    (m : ManagerState) : ManagerState :=
  autoSelectFirst progOk (reconcilePass readFile files m)

/-- Catalog invariant: a non-null current id keys an existing entry. -/
def currentValid (m : ManagerState) : Prop :=
  match m.currentShaderId with
  | none => True
  | some c => mapGet m.shaders c ≠ none

/-! ## Remote acquisition (`ShaderManager.loadFromShadertoy`) -/

/-- ASCII alphanumeric class `[A-Za-z0-9]` of the URL regex. -/
def alnum (c : Char) : Bool :=
  (('A' ≤ c && c ≤ 'Z') || ('a' ≤ c && c ≤ 'z')) || ('0' ≤ c && c ≤ '9')

/-- Attempt of the regex `shadertoy\.com\/view\/([A-Za-z0-9]+)` at the head
of the list: the literal must match and the following alphanumeric run must
be nonempty; the run (greedy, maximal) is the captured id. -/
def idAt (l : List Char) : Option (List Char) :=
  if listStarts "shadertoy.com/view/".data l then
    let run := (l.drop 19).takeWhile alnum
    if run.isEmpty then none else some run
  else none

/-- Leftmost-match regex search: try the pattern at each position in turn. -/
def scanFor : List Char → Option (List Char)
  | [] => none
  | c :: rest =>
    match idAt (c :: rest) with
    | some r => some r
    | none => scanFor rest

/-- Shader-id extraction of `ShaderManager.loadFromShadertoy`
(`url.match(/shadertoy\.com\/view\/([A-Za-z0-9]+)/)`). -/
def extractShadertoyId (url : String) : Option String :=
  (scanFor url.data).map String.mk

/-- Model of `ShaderManager.loadFromShadertoy`. The URL guard is concrete;
the page fetch and the three extraction strategies plus the name fallback
are oracles (`none` models no match, and for the fetch a thrown error or a
non-ok response). The returned number counts network fetches performed. -/
def loadFromShadertoy (fetchUrl : String → Option String)
    (pat1 : String → Option (String × Option String))
    (pat2 pat3 patName : String → Option String)
    (m : ManagerState) (url : String) : ManagerState × Bool × Nat :=
  match extractShadertoyId url with
  | none => (m, false, 0)
  | some sid =>
    match fetchUrl ("https://www.shadertoy.com/view/" ++ sid) with
    | none => (m, false, 1)
    | some html =>
      let defName := "Shadertoy " ++ sid
      let c1 := pat1 html
      let code0 : Option String := c1.map (fun x => x.1)
      let name0 : String :=
        match c1 with
        | some (_, some n) => n
        | _ => defName
      let code1 := match code0 with | some c => some c | none => pat2 html
      let code2 := match code1 with | some c => some c | none => pat3 html
      match code2 with
      | none => (m, false, 1)
      | some code =>
        let nameF := if name0 = defName then (patName html).getD defName else name0
        (addShader m ("shadertoy-" ++ sid) code nameF .shadertoySrc, true, 1)

/-! ## Persisted configuration (`config.ts`, loaded by `window.ts`) -/

/-- Application configuration structure (`AppConfig` in `config.ts`). -/
structure AppConfig where
  opacityPercent : Int
  timeScale : Rat
  frameRate : Option Int
  showWindowInTaskbar : Bool
deriving DecidableEq

/-- Default configuration (`DEFAULT_CONFIG`). -/
def defaultConfig : AppConfig :=
  { opacityPercent := 10, timeScale := 1, frameRate := none, showWindowInTaskbar := false }

/-- Parsed JSON object of a configuration file: each field is present or
absent; `showInTaskbar` is the legacy key handled by the migration step. -/
structure PartialConfig where
  opacityPercent : Option Int := none
  timeScale : Option Rat := none
  frameRate : Option (Option Int) := none
  showWindowInTaskbar : Option Bool := none
  showInTaskbar : Option Bool := none
deriving DecidableEq

/-- Contents of a configuration file: either unparseable text (`JSON.parse`
throws) or a parsed object. -/
inductive ConfigFileContent where
  | malformed
  | wellFormed (p : PartialConfig)
deriving DecidableEq

/-- Filesystem view of `loadConfig`: the two file slots plus the module cache. -/
structure ConfigFs where
  configFile : Option ConfigFileContent
  defaultFile : Option ConfigFileContent
  cached : Option AppConfig
deriving DecidableEq

/-- Migration step of `loadConfig`: a file with the old `showInTaskbar` key
and no `showWindowInTaskbar` key has the value moved to the new key. -/
def migrateConfig (p : PartialConfig) : PartialConfig :=
  if p.showInTaskbar.isSome && p.showWindowInTaskbar.isNone then
    { p with showWindowInTaskbar := p.showInTaskbar, showInTaskbar := none }
  else p

/-- Spread `{...DEFAULT_CONFIG, ...fileConfig}`: present fields override the
defaults, absent fields keep them. -/
def mergeConfig (d : AppConfig) (p : PartialConfig) : AppConfig :=
  { opacityPercent := p.opacityPercent.getD d.opacityPercent
    timeScale := p.timeScale.getD d.timeScale
    frameRate := p.frameRate.getD d.frameRate
    showWindowInTaskbar := p.showWindowInTaskbar.getD d.showWindowInTaskbar }

/-- Full configuration serialized back to a file
(`JSON.stringify(DEFAULT_CONFIG)` writes every field). -/
def toPartialConfig (c : AppConfig) : PartialConfig :=
  { opacityPercent := some c.opacityPercent
    timeScale := some c.timeScale
    frameRate := some c.frameRate
    showWindowInTaskbar := some c.showWindowInTaskbar }

/-- Model of `loadConfig`: copy the default file over a missing config file,
then parse-merge-cache a well-formed file; a malformed or still-missing file
falls through the catch to writing the defaults and returning them. -/
def loadConfig (fs : ConfigFs) : ConfigFs × AppConfig :=
  let fs1 :=
    match fs.configFile, fs.defaultFile with
    | none, some d => { fs with configFile := some d }
    | _, _ => fs
  match fs1.configFile with
  | some (.wellFormed p) =>
    let merged := mergeConfig defaultConfig (migrateConfig p)
    ({ fs1 with cached := some merged }, merged)
  | some .malformed =>
    ({ fs1 with
        configFile := some (.wellFormed (toPartialConfig defaultConfig))
        cached := some defaultConfig }, defaultConfig)
  | none =>
    ({ fs1 with
        configFile := some (.wellFormed (toPartialConfig defaultConfig))
        cached := some defaultConfig }, defaultConfig)

/-! ## Overlay window state machine (`window.ts`) -/

/-- State captured before the destructive taskbar reconfiguration. -/
structure CapturedState where
  wasVisible : Bool
  opacity : Rat
  clickthrough : Bool
  overlayVisible : Bool
deriving DecidableEq

/-- Module state of `window.ts`: the window handle existence and its
observable properties, the module-level flags, the active configuration with
a count of configuration-file writes, and the deferred restoration payload
scheduled by the taskbar reconfiguration. -/
structure WinState where
  hasWindow : Bool
  visible : Bool
  overlayVisible : Bool
  isClickthrough : Bool
  opacity : Rat
  config : AppConfig
  configWrites : Nat
  pendingRestore : Option CapturedState
deriving DecidableEq

/-- Synchronous effect of `createMainWindow`: a fresh visible window at full
opacity with clickthrough enabled; the module flags `overlayVisible` and the
configuration are untouched. -/
def createMainWindowS (s : WinState) : WinState :=
  { s with hasWindow := true, visible := true, opacity := 1, isClickthrough := true }

/-- Model of `saveConfig`: write the updated configuration to the file and
cache it. -/
def saveConfigW (s : WinState) (c : AppConfig) : WinState :=
  { s with config := c, configWrites := s.configWrites + 1 }

/-- Model of `toggleOverlay` (the hotkey handler): flip `overlayVisible`
unconditionally; with a window present, show it, slave clickthrough to the
negation of the new overlay state and force full opacity when the overlay
became visible; without a window, create one. -/
def toggleOverlay (s : WinState) : WinState :=
  let s1 := { s with overlayVisible := !s.overlayVisible }
  if s1.hasWindow then
    let s2 := { s1 with visible := true }
    let s3 := { s2 with isClickthrough := !s1.overlayVisible }
    if s1.overlayVisible then { s3 with opacity := 1 } else s3
  else
    createMainWindowS s1

/-- Model of `setShowWindowInTaskbar`: an unchanged value with a live window
returns immediately; otherwise the configuration is saved and, when a window
exists, its state is captured, the window destroyed and recreated, and the
captured state left as the deferred restoration payload. -/
def setShowWindowInTaskbar (s : WinState) (b : Bool) : WinState :=
  if s.config.showWindowInTaskbar = b ∧ s.hasWindow = true then s
  else
    let s1 := saveConfigW s { s.config with showWindowInTaskbar := b }
    if s1.hasWindow then
      let cap : CapturedState :=
        ⟨s1.visible, s1.opacity, s1.isClickthrough, s1.overlayVisible⟩
      let s2 := createMainWindowS { s1 with hasWindow := false, visible := false }
      { s2 with pendingRestore := some cap }
    else s1

/-! ## Opacity persistence (`App.setupUI` and the `set-opacity` handler) -/

/-- Renderer-side persistence state: the `localStorage` key-value store, the
canvas CSS opacity set by `ShaderRenderer.setOpacity`, and the main-process
configuration file with its write counter. -/
structure UiPersist where
  localStore : List (String × String)
  canvasOpacity : Rat
  config : AppConfig
  configWrites : Nat

/-- Model of the opacity-slider input handler in `App.setupUI`: apply the
value through `ShaderRenderer.setOpacity` (canvas CSS opacity = value/100)
and save the value under the `localStorage` key `opacity`. -/
def opacitySliderInput (u : UiPersist) (v : Nat) : UiPersist :=
  { u with
    canvasOpacity := (v : Rat) / 100
    localStore := mapSet u.localStore "opacity" (Nat.repr v) }

/-- Model of the `set-opacity` IPC handler in `window.ts`: its body is only
comments, so it performs no state change at all. -/
def ipcSetOpacity (u : UiPersist) (_v : Nat) : UiPersist := u

/-- Digit-run accumulator for decimal parsing. -/
def parseDecDigits : List Char → Nat → Nat
  | [], acc => acc
  | c :: rest, acc => parseDecDigits rest (acc * 10 + (c.toNat - 48))

/-- Decimal parse of a slider value string (`parseFloat` restricted to the
nonnegative-integer strings the 0 to 100 opacity slider produces). -/
def parseDec (s : String) : Option Nat :=
  if s.data ≠ [] ∧ s.data.all (fun c => '0' ≤ c && c ≤ '9') then
    some (parseDecDigits s.data 0)
  else none

/-- Saved opacity as read back by `App.setupUI` at startup:
`localStorage.getItem('opacity')` parsed as a number. -/
def readSavedOpacity (u : UiPersist) : Option Nat :=
  (mapGet u.localStore "opacity").bind parseDec

/-! ## Helper lemmas about the association-list map -/

theorem mapGet_mapSet_self {β : Type} (l : List (String × β)) (k : String) (v : β) :
    mapGet (mapSet l k v) k = some v := by
  induction l with
  | nil => simp [mapSet, mapGet]
  | cons e rest ih =>
    obtain ⟨k0, v0⟩ := e
    by_cases h : k0 = k
    · simp [mapSet, h, mapGet]
    · simp [mapSet, h, mapGet, ih]

theorem mapGet_mapSet_ne {β : Type} (l : List (String × β)) (k : String) (v : β)
    (x : String) (h : k ≠ x) : mapGet (mapSet l k v) x = mapGet l x := by
  induction l with
  | nil => simp [mapSet, mapGet, h]
  | cons e rest ih =>
    obtain ⟨k0, v0⟩ := e
    by_cases h0 : k0 = k
    · subst h0; simp [mapSet, mapGet, h]
    · simp [mapSet, h0, mapGet, ih]

theorem mem_mapSet {β : Type} (l : List (String × β)) (k : String) (v : β)
    (e : String × β) (h : e ∈ mapSet l k v) : e ∈ l ∨ e.1 = k := by
  induction l with
  | nil =>
    simp [mapSet] at h
    subst h; right; rfl
  | cons e0 rest ih =>
    obtain ⟨k0, v0⟩ := e0
    by_cases h0 : k0 = k
    · simp [mapSet, h0] at h
      rcases h with h | h
      · subst h; right; rfl
      · left; exact List.mem_cons_of_mem _ h
    · simp [mapSet, h0] at h
      rcases h with h | h
      · subst h; left; exact List.mem_cons_self _ _
      · rcases ih h with h1 | h1
        · left; exact List.mem_cons_of_mem _ h1
        · right; exact h1

theorem mapGet_eq_none_of_forall {β : Type} (l : List (String × β)) (x : String)
    (h : ∀ e ∈ l, e.1 ≠ x) : mapGet l x = none := by
  induction l with
  | nil => rfl
  | cons e rest ih =>
    obtain ⟨k, v⟩ := e
    have hk : k ≠ x := h (k, v) (List.mem_cons_self _ _)
    simp [mapGet, hk]
    exact ih (fun e he => h e (List.mem_cons_of_mem _ he))

theorem mapGet_ne_none_iff {β : Type} (l : List (String × β)) (x : String) :
    mapGet l x ≠ none ↔ ∃ v, (x, v) ∈ l := by
  induction l with
  | nil => simp [mapGet]
  | cons e rest ih =>
    obtain ⟨k, v0⟩ := e
    by_cases hk : k = x
    · subst hk
      simp [mapGet]
    · simp [mapGet, hk, ih]
      constructor
      · intro ⟨v, hv⟩
        exact ⟨v, Or.inr hv⟩
      · intro ⟨v, hv⟩
        rcases hv with hv | hv
        · exact absurd hv.1.symm hk
        · exact ⟨v, hv⟩

theorem mapGet_mapSet_ne_none {β : Type} (l : List (String × β)) (k : String) (v : β)
    (x : String) (h : mapGet l x ≠ none) : mapGet (mapSet l k v) x ≠ none := by
  by_cases hk : k = x
  · subst hk; rw [mapGet_mapSet_self]; simp
  · rw [mapGet_mapSet_ne l k v x hk]; exact h

theorem dropFile_append (p : String) : dropFile ("file-" ++ p) = p := by
  unfold dropFile
  rw [show ("file-" ++ p).data = 'f' :: 'i' :: 'l' :: 'e' :: '-' :: p.data from by
    rw [String.data_append, show "file-".data = ['f', 'i', 'l', 'e', '-'] from rfl]
    rfl]
  rfl

/-! ## Helper lemmas about the reconciliation loops -/

theorem pruneShaders_no_dir (files : List String) :
    ∀ (l : List (String × ShaderEntry)) (cur : Option String),
      (∀ e ∈ l, isDirId e.1 = false) → pruneShaders files l cur = ⟨l, cur, []⟩ := by
  intro l
  induction l with
  | nil => intro cur h; rfl
  | cons e rest ih =>
    intro cur h
    obtain ⟨id, sh⟩ := e
    have hd : isDirId id = false := h (id, sh) (List.mem_cons_self _ _)
    simp [pruneShaders, hd, ih cur (fun e he => h e (List.mem_cons_of_mem _ he))]

theorem pruneShaders_kept_sub (files : List String) :
    ∀ (l : List (String × ShaderEntry)) (cur : Option String) (e : String × ShaderEntry),
      e ∈ (pruneShaders files l cur).kept →
      e ∈ l ∧ (isDirId e.1 = true → dropFile e.1 ∈ files) := by
  intro l
  induction l with
  | nil => intro cur e he; simp [pruneShaders] at he
  | cons e0 rest ih =>
    intro cur e he
    obtain ⟨id, sh⟩ := e0
    by_cases hdir : isDirId id
    · by_cases hp : dropFile id ∈ files
      · simp [pruneShaders, hdir, hp] at he
        rcases he with he | he
        · subst he
          exact ⟨List.mem_cons_self _ _, fun _ => hp⟩
        · obtain ⟨h1, h2⟩ := ih cur e he
          exact ⟨List.mem_cons_of_mem _ h1, h2⟩
      · simp [pruneShaders, hdir, hp] at he
        obtain ⟨h1, h2⟩ := ih _ e he
        exact ⟨List.mem_cons_of_mem _ h1, h2⟩
    · simp [pruneShaders, hdir] at he
      rcases he with he | he
      · subst he
        exact ⟨List.mem_cons_self _ _, fun hc => absurd hc (by simp [hdir])⟩
      · obtain ⟨h1, h2⟩ := ih cur e he
        exact ⟨List.mem_cons_of_mem _ h1, h2⟩

theorem pruneShaders_mapGet_none (files : List String)
    (l : List (String × ShaderEntry)) (cur : Option String) (id : String)
    (hdir : isDirId id = true) (hp : dropFile id ∉ files) :
    mapGet (pruneShaders files l cur).kept id = none := by
  apply mapGet_eq_none_of_forall
  intro e he hx
  obtain ⟨_, h2⟩ := pruneShaders_kept_sub files l cur e he
  exact hp (hx ▸ h2 (hx ▸ hdir))

theorem pruneShaders_cur_of_none (files : List String) :
    ∀ (l : List (String × ShaderEntry)), (pruneShaders files l none).cur = none := by
  intro l
  induction l with
  | nil => rfl
  | cons e0 rest ih =>
    obtain ⟨id, sh⟩ := e0
    by_cases hdir : isDirId id
    · by_cases hp : dropFile id ∈ files
      · simp [pruneShaders, hdir, hp, ih]
      · simp [pruneShaders, hdir, hp, ih]
    · simp [pruneShaders, hdir, ih]

theorem pruneShaders_cur_cases (files : List String) :
    ∀ (l : List (String × ShaderEntry)) (cur : Option String) (x : String),
      (pruneShaders files l cur).cur = some x →
      (∃ v, (x, v) ∈ (pruneShaders files l cur).kept)
      ∨ (cur = some x ∧ ∀ v, (x, v) ∉ l) := by
  intro l
  induction l with
  | nil =>
    intro cur x h
    right
    exact ⟨h, fun v hv => by simp at hv⟩
  | cons e0 rest ih =>
    intro cur x h
    obtain ⟨id, sh⟩ := e0
    by_cases hdir : isDirId id
    · by_cases hp : dropFile id ∈ files
      · simp only [pruneShaders, hdir, hp, if_true, if_pos] at h ⊢
        rcases ih cur x h with ⟨v, hv⟩ | ⟨h1, h2⟩
        · exact Or.inl ⟨v, List.mem_cons_of_mem _ hv⟩
        · by_cases hx : x = id
          · subst hx
            exact Or.inl ⟨sh, List.mem_cons_self _ _⟩
          · refine Or.inr ⟨h1, fun v hv => ?_⟩
            rcases List.mem_cons.mp hv with hv | hv
            · exact hx (congrArg Prod.fst hv)
            · exact h2 v hv
      · simp only [pruneShaders, hdir, hp, if_true, if_neg, if_false] at h ⊢
        rcases ih _ x h with ⟨v, hv⟩ | ⟨h1, h2⟩
        · exact Or.inl ⟨v, hv⟩
        · by_cases hc : cur = some id
          · rw [if_pos hc] at h1
            exact absurd h1 (by simp)
          · rw [if_neg hc] at h1
            refine Or.inr ⟨h1, fun v hv => ?_⟩
            rcases List.mem_cons.mp hv with hv | hv
            · exact hc (h1.trans (congrArg some (congrArg Prod.fst hv)))
            · exact h2 v hv
    · simp only [pruneShaders, hdir, if_false, Bool.false_eq_true] at h ⊢
      rcases ih cur x h with ⟨v, hv⟩ | ⟨h1, h2⟩
      · exact Or.inl ⟨v, List.mem_cons_of_mem _ hv⟩
      · by_cases hx : x = id
        · subst hx
          exact Or.inl ⟨sh, List.mem_cons_self _ _⟩
        · refine Or.inr ⟨h1, fun v hv => ?_⟩
          rcases List.mem_cons.mp hv with hv | hv
          · exact hx (congrArg Prod.fst hv)
          · exact h2 v hv

theorem pruneShaders_cur_removed (files : List String) :
    ∀ (l : List (String × ShaderEntry)) (cur : Option String) (c : String),
      cur = some c → isDirId c = true → dropFile c ∉ files →
      (∃ v, (c, v) ∈ l) → (pruneShaders files l cur).cur = none := by
  intro l
  induction l with
  | nil =>
    intro cur c _ _ _ hmem
    obtain ⟨v, hv⟩ := hmem
    simp at hv
  | cons e0 rest ih =>
    intro cur c hcur hdir hp hmem
    obtain ⟨id, sh⟩ := e0
    by_cases hid : id = c
    · subst hid
      simp only [pruneShaders, hdir, if_true]
      rw [if_neg (fun hin => hp hin)]
      rw [if_pos (hcur.trans rfl)]
      exact pruneShaders_cur_of_none files rest
    · obtain ⟨v, hv⟩ := hmem
      rcases List.mem_cons.mp hv with hv | hv
      · exact absurd (congrArg Prod.fst hv).symm hid
      · by_cases hdir0 : isDirId id
        · by_cases hp0 : dropFile id ∈ files
          · simp only [pruneShaders, hdir0, hp0, if_true, if_pos]
            exact ih cur c hcur hdir hp ⟨v, hv⟩
          · simp only [pruneShaders, hdir0, hp0, if_true, if_neg, if_false]
            have hne : cur ≠ some id := by
              rw [hcur]
              intro hx
              exact hid (Option.some.inj hx).symm
            rw [if_neg hne]
            exact ih cur c hcur hdir hp ⟨v, hv⟩
        · simp only [pruneShaders, hdir0, if_false, Bool.false_eq_true]
          exact ih cur c hcur hdir hp ⟨v, hv⟩

theorem addNewShaders_cur (rd : String → Option String) (loaded : List String) :
    ∀ (fs : List String) (m : ManagerState),
      (addNewShaders rd loaded m fs).1.currentShaderId = m.currentShaderId := by
  intro fs
  induction fs with
  | nil => intro m; rfl
  | cons p rest ih =>
    intro m
    by_cases hl : p ∈ loaded
    · simp [addNewShaders, hl, ih]
    · cases hr : rd p with
      | none => simp [addNewShaders, hl, loadFromFilePath, hr, ih]
      | some code => simp [addNewShaders, hl, loadFromFilePath, hr, ih, addShader]

theorem addNewShaders_mapGet (rd : String → Option String) (loaded : List String)
    (id : String) :
    ∀ (fs : List String) (m : ManagerState), (∀ p ∈ fs, "file-" ++ p ≠ id) →
      mapGet (addNewShaders rd loaded m fs).1.shaders id = mapGet m.shaders id := by
  intro fs
  induction fs with
  | nil => intro m _; rfl
  | cons p rest ih =>
    intro m h
    have hp : "file-" ++ p ≠ id := h p (List.mem_cons_self _ _)
    have hrest : ∀ q ∈ rest, "file-" ++ q ≠ id :=
      fun q hq => h q (List.mem_cons_of_mem _ hq)
    by_cases hl : p ∈ loaded
    · simp [addNewShaders, hl, ih _ hrest]
    · cases hr : rd p with
      | none => simp [addNewShaders, hl, loadFromFilePath, hr, ih _ hrest]
      | some code =>
        simp [addNewShaders, hl, loadFromFilePath, hr, ih _ hrest, addShader]
        exact mapGet_mapSet_ne _ _ _ _ hp

theorem addNewShaders_mapGet_ne_none (rd : String → Option String)
    (loaded : List String) (x : String) :
    ∀ (fs : List String) (m : ManagerState), mapGet m.shaders x ≠ none →
      mapGet (addNewShaders rd loaded m fs).1.shaders x ≠ none := by
  intro fs
  induction fs with
  | nil => intro m h; exact h
  | cons p rest ih =>
    intro m h
    by_cases hl : p ∈ loaded
    · simp only [addNewShaders, hl, if_pos]
      exact ih m h
    · cases hr : rd p with
      | none =>
        simp only [addNewShaders, hl, if_neg, loadFromFilePath, hr]
        exact ih m h
      | some code =>
        simp only [addNewShaders, hl, if_neg, loadFromFilePath, hr]
        exact ih _ (mapGet_mapSet_ne_none _ _ _ _ h)

theorem addNewShaders_mem (rd : String → Option String) (loaded : List String) :
    ∀ (fs : List String) (m : ManagerState) (e : String × ShaderEntry),
      e ∈ (addNewShaders rd loaded m fs).1.shaders →
      e ∈ m.shaders ∨ ∃ p ∈ fs, e.1 = "file-" ++ p := by
  intro fs
  induction fs with
  | nil => intro m e he; exact Or.inl he
  | cons p rest ih =>
    intro m e he
    by_cases hl : p ∈ loaded
    · simp only [addNewShaders, hl, if_pos] at he
      rcases ih m e he with h | ⟨q, hq1, hq2⟩
      · exact Or.inl h
      · exact Or.inr ⟨q, List.mem_cons_of_mem _ hq1, hq2⟩
    · cases hr : rd p with
      | none =>
        simp only [addNewShaders, hl, if_neg, loadFromFilePath, hr] at he
        rcases ih m e he with h | ⟨q, hq1, hq2⟩
        · exact Or.inl h
        · exact Or.inr ⟨q, List.mem_cons_of_mem _ hq1, hq2⟩
      | some code =>
        simp only [addNewShaders, hl, if_neg, loadFromFilePath, hr] at he
        rcases ih _ e he with h | ⟨q, hq1, hq2⟩
        · rcases mem_mapSet _ _ _ e h with h1 | h1
          · exact Or.inl h1
          · exact Or.inr ⟨p, List.mem_cons_self _ _, h1⟩
        · exact Or.inr ⟨q, List.mem_cons_of_mem _ hq1, hq2⟩

theorem addNewShaders_count (rd : String → Option String) (loaded : List String)
    (hrd : ∀ p, (rd p).isSome = true) :
    ∀ (fs : List String) (m : ManagerState), (∀ p ∈ fs, p ∉ loaded) →
      (addNewShaders rd loaded m fs).1.notifyCount = m.notifyCount + fs.length
      ∧ (addNewShaders rd loaded m fs).2 = !fs.isEmpty := by
  intro fs
  induction fs with
  | nil => intro m _; exact ⟨rfl, rfl⟩
  | cons p rest ih =>
    intro m h
    have hl : p ∉ loaded := h p (List.mem_cons_self _ _)
    have hrest : ∀ q ∈ rest, q ∉ loaded := fun q hq => h q (List.mem_cons_of_mem _ hq)
    obtain ⟨code, hr⟩ := Option.isSome_iff_exists.mp (hrd p)
    have hcount := (ih (addShader m ("file-" ++ p) code (baseNameNoExt p) .localSrc) hrest).1
    have hstep : addNewShaders rd loaded m (p :: rest) =
        ((addNewShaders rd loaded
            (addShader m ("file-" ++ p) code (baseNameNoExt p) .localSrc) rest).1, true) := by
      simp [addNewShaders, hl, loadFromFilePath, hr]
    constructor
    · rw [hstep]
      dsimp only
      rw [hcount]
      simp [addShader]
      omega
    · rw [hstep]
      simp

theorem selectShader_shaders (progOk : WrappedShader → Bool) (m : ManagerState)
    (id : String) : (selectShader progOk m id).1.shaders = m.shaders := by
  cases h : mapGet m.shaders id <;> simp [selectShader, h]

theorem selectShader_cur_found (progOk : WrappedShader → Bool) (m : ManagerState)
    (id : String) (sh : ShaderEntry) (h : mapGet m.shaders id = some sh) :
    (selectShader progOk m id).1.currentShaderId = some id := by
  simp [selectShader, h]

theorem autoSelectFirst_shaders (progOk : WrappedShader → Bool) (m : ManagerState) :
    (autoSelectFirst progOk m).shaders = m.shaders := by
  cases hc : m.currentShaderId with
  | some c => simp [autoSelectFirst, hc]
  | none =>
    cases hs : m.shaders with
    | nil => simp [autoSelectFirst, hc, hs]
    | cons e tl =>
      obtain ⟨id0, e0⟩ := e
      simp [autoSelectFirst, hc, hs, selectShader_shaders]

theorem autoSelectFirst_some (progOk : WrappedShader → Bool) (m : ManagerState)
    (c : String) (hc : m.currentShaderId = some c) : autoSelectFirst progOk m = m := by
  simp [autoSelectFirst, hc]

theorem autoSelectFirst_none_cons (progOk : WrappedShader → Bool) (m : ManagerState)
    (e : String × ShaderEntry) (tl : List (String × ShaderEntry))
    (hc : m.currentShaderId = none) (hs : m.shaders = e :: tl) :
    (autoSelectFirst progOk m).currentShaderId = some e.1 := by
  obtain ⟨id0, e0⟩ := e
  have hget : mapGet m.shaders id0 = some e0 := by
    rw [hs]
    simp [mapGet]
  simp only [autoSelectFirst, hc, hs]
  exact selectShader_cur_found progOk m id0 e0 hget

theorem reconcilePass_shaders_cur (rd : String → Option String) (files : List String)
    (m : ManagerState) :
    (reconcilePass rd files m).shaders
      = (addNewShaders rd (pruneShaders files m.shaders m.currentShaderId).loaded
          { m with shaders := (pruneShaders files m.shaders m.currentShaderId).kept
                   currentShaderId := (pruneShaders files m.shaders m.currentShaderId).cur }
          files).1.shaders
    ∧ (reconcilePass rd files m).currentShaderId
      = (addNewShaders rd (pruneShaders files m.shaders m.currentShaderId).loaded
          { m with shaders := (pruneShaders files m.shaders m.currentShaderId).kept
                   currentShaderId := (pruneShaders files m.shaders m.currentShaderId).cur }
          files).1.currentShaderId := by
  unfold reconcilePass
  dsimp only
  split
  · exact ⟨rfl, rfl⟩
  · exact ⟨rfl, rfl⟩

/-! ## Claim theorems -/

/-- C8: for every shader body text, the wrapper fragment output is exactly the
fixed preamble with the uniform block (elapsed time, delta time, 3-vector
resolution, 4-vector pointer, 4 channel samplers plus the per-channel
resolution array), then the body verbatim, then the fixed entry point that
calls the image function and writes its result, alpha included, to the output
color unmodified (`gl_FragColor = color;` with no further arithmetic). -/
theorem wrapShadertoyShader_structure (code : String) :
    (wrapShadertoyShader code).fragment = fragPre ++ code ++ fragPost
    ∧ hasSubstr fragPre "uniform float iTime;" = true
    ∧ hasSubstr fragPre "uniform float iTimeDelta;" = true
    ∧ hasSubstr fragPre "uniform vec3 iResolution;" = true
    ∧ hasSubstr fragPre "uniform vec4 iMouse;" = true
    ∧ hasSubstr fragPre "uniform sampler2D iChannel0;" = true
    ∧ hasSubstr fragPre "uniform sampler2D iChannel1;" = true
    ∧ hasSubstr fragPre "uniform sampler2D iChannel2;" = true
    ∧ hasSubstr fragPre "uniform sampler2D iChannel3;" = true
    ∧ hasSubstr fragPre "uniform vec3 iChannelResolution[4];" = true
    ∧ hasSubstr fragPost "mainImage(color, gl_FragCoord.xy);" = true
    ∧ hasSubstr fragPost "gl_FragColor = color;" = true
    ∧ (wrapShadertoyShader code).vertex = vertexShaderSrc := by
  refine ⟨rfl, ?_, ?_, ?_, ?_, ?_, ?_, ?_, ?_, ?_, ?_, ?_, rfl⟩ <;> decide

/-- C10: calling the taskbar-visibility reconfiguration with the value that is
already configured, while a window exists, is a complete no-op: the state,
including the configuration-file write counter and all window flags, is
returned unchanged. -/
theorem setShowWindowInTaskbar_noop (s : WinState) (b : Bool)
    (h1 : s.hasWindow = true) (h2 : s.config.showWindowInTaskbar = b) :
    setShowWindowInTaskbar s b = s := by
  simp [setShowWindowInTaskbar, h1, h2]

/-- C10 witness: the no-op theorem applied at a concrete state. -/
theorem setShowWindowInTaskbar_noop_witness :
    setShowWindowInTaskbar ⟨true, true, false, true, 1, defaultConfig, 3, none⟩ false
      = ⟨true, true, false, true, 1, defaultConfig, 3, none⟩ :=
  setShowWindowInTaskbar_noop ⟨true, true, false, true, 1, defaultConfig, 3, none⟩ false rfl rfl

/-- C7 counterexample: starting from the default configuration, setting the
opacity control to 37 and completing the save cycle leaves the persisted
configuration field `opacityPercent` at 10; it does not become 37, because
the slider handler persists through the renderer-local store and the
`set-opacity` IPC handler writes nothing. -/
theorem opacity_persist_counterexample :
    (opacitySliderInput ⟨[], 1, defaultConfig, 0⟩ 37).config.opacityPercent = 10
    ∧ ¬((opacitySliderInput ⟨[], 1, defaultConfig, 0⟩ 37).config.opacityPercent = 37) := by
  constructor <;> decide

/-- C7 (amended): after setting opacity to 37 via the slider handler, the
value read back from the persisted renderer-local store under the key
`opacity` is 37; the main-process configuration file is neither changed nor
rewritten by the cycle (the `set-opacity` IPC handler is a no-op), so its
`opacityPercent` keeps its prior value. -/
theorem opacity_persist_spec (u : UiPersist) :
    readSavedOpacity (opacitySliderInput u 37) = some 37
    ∧ (opacitySliderInput u 37).config = u.config
    ∧ (opacitySliderInput u 37).configWrites = u.configWrites
    ∧ ipcSetOpacity u 37 = u := by
  refine ⟨?_, rfl, rfl, rfl⟩
  unfold readSavedOpacity opacitySliderInput
  dsimp only
  rw [mapGet_mapSet_self]
  decide

/-- C9: loading a malformed configuration file recovers by returning the
default configuration and overwriting the file with those defaults, and a
well-formed partial configuration is merged over the defaults (after the
legacy-key migration). -/
theorem loadConfig_recovery_spec (fs : ConfigFs)
    (h : fs.configFile = some ConfigFileContent.malformed) :
    (loadConfig fs).2 = defaultConfig
    ∧ (loadConfig fs).1.configFile
        = some (ConfigFileContent.wellFormed (toPartialConfig defaultConfig))
    ∧ (∀ fs2 p, fs2.configFile = some (ConfigFileContent.wellFormed p) →
        (loadConfig fs2).2 = mergeConfig defaultConfig (migrateConfig p))
    ∧ (∀ q : PartialConfig,
        (mergeConfig defaultConfig q).opacityPercent = q.opacityPercent.getD 10
        ∧ (mergeConfig defaultConfig q).showWindowInTaskbar
            = q.showWindowInTaskbar.getD false) := by
  refine ⟨?_, ?_, ?_, ?_⟩
  · simp [loadConfig, h]
  · simp [loadConfig, h]
  · intro fs2 p h2
    simp [loadConfig, h2]
  · intro q
    exact ⟨rfl, rfl⟩

/-- C9 witness: recovery and merge applied at concrete configuration files. -/
theorem loadConfig_recovery_witness :
    (loadConfig ⟨some ConfigFileContent.malformed, none, none⟩).2 = defaultConfig
    ∧ (loadConfig ⟨some (ConfigFileContent.wellFormed
          { opacityPercent := some 55 }), none, none⟩).2
        = mergeConfig defaultConfig (migrateConfig { opacityPercent := some 55 }) :=
  ⟨(loadConfig_recovery_spec ⟨some ConfigFileContent.malformed, none, none⟩ rfl).1,
   (loadConfig_recovery_spec ⟨some ConfigFileContent.malformed, none, none⟩ rfl).2.2.1
     ⟨some (ConfigFileContent.wellFormed { opacityPercent := some 55 }), none, none⟩
     { opacityPercent := some 55 } rfl⟩

/-- C6 counterexample: from the reachable state where a window exists, the
overlay is hidden and clickthrough is already disabled (as the focus handler
in taskbar mode leaves it), applying the hotkey toggle twice does not return
the clickthrough flag to its original value: it ends up enabled. -/
theorem toggleOverlay_double_counterexample :
    ¬((toggleOverlay (toggleOverlay
          (⟨true, true, false, false, 1, defaultConfig, 0, none⟩ : WinState))).isClickthrough
        = (⟨true, true, false, false, 1, defaultConfig, 0, none⟩ : WinState).isClickthrough) := by
  decide

/-- C6 (amended): the hotkey toggle flips the overlay-visible flag
unconditionally from every state; and from any state where a window exists
and clickthrough is in sync (equal to the negation of overlay-visible),
applying the toggle twice returns both the clickthrough flag and the
overlay-visible flag to their original values. From an out-of-sync state the
second toggle instead forces clickthrough to the negation of overlay-visible. -/
theorem toggleOverlay_flip_spec (s : WinState) :
    (toggleOverlay s).overlayVisible = !s.overlayVisible
    ∧ (s.hasWindow = true → s.isClickthrough = !s.overlayVisible →
        (toggleOverlay (toggleOverlay s)).overlayVisible = s.overlayVisible
        ∧ (toggleOverlay (toggleOverlay s)).isClickthrough = s.isClickthrough) := by
  obtain ⟨hw, vis, ov, ic, op, cf, cw, pr⟩ := s
  cases hw <;> cases ov <;> cases ic <;>
    simp [toggleOverlay, createMainWindowS]

/-- C6 witness: the amended double-toggle identity applied at a concrete
in-sync state. -/
theorem toggleOverlay_flip_spec_witness :
    (toggleOverlay (⟨true, true, false, true, 1, defaultConfig, 0, none⟩ : WinState)).overlayVisible
        = true
    ∧ (toggleOverlay (toggleOverlay
          (⟨true, true, false, true, 1, defaultConfig, 0, none⟩ : WinState))).isClickthrough
        = true :=
  ⟨(toggleOverlay_flip_spec ⟨true, true, false, true, 1, defaultConfig, 0, none⟩).1,
   ((toggleOverlay_flip_spec ⟨true, true, false, true, 1, defaultConfig, 0, none⟩).2
      rfl rfl).2⟩

/-- C5: for every URL on which the fixed path pattern
`shadertoy.com/view/<alphanumeric id>` finds no match, `loadFromShadertoy`
returns failure without performing any network fetch (fetch count 0) and
without mutating the catalog, for every fetch and extraction oracle. -/
theorem loadFromShadertoy_badUrl_noFetch (fetchUrl : String → Option String)
    (pat1 : String → Option (String × Option String))
    (pat2 pat3 patName : String → Option String)
    (m : ManagerState) (url : String)
    (h : extractShadertoyId url = none) :
    loadFromShadertoy fetchUrl pat1 pat2 pat3 patName m url = (m, false, 0) := by
  simp [loadFromShadertoy, h]

/-- C5 witness: the guard theorem applied at a concrete non-matching URL. -/
theorem loadFromShadertoy_badUrl_noFetch_witness :
    loadFromShadertoy (fun _ => none) (fun _ => none) (fun _ => none) (fun _ => none)
      (fun _ => none) ⟨[], none, ⟨none, "", [], 0⟩, 0⟩ "https://example.com/nope"
      = (⟨[], none, ⟨none, "", [], 0⟩, 0⟩, false, 0) :=
  loadFromShadertoy_badUrl_noFetch (fun _ => none) (fun _ => none) (fun _ => none)
    (fun _ => none) (fun _ => none) ⟨[], none, ⟨none, "", [], 0⟩, 0⟩
    "https://example.com/nope" (by decide)

/-- C3: selecting an id absent from the catalog returns failure and leaves the
whole state, in particular the current selection id, unchanged; selecting a
present id sets the current selection to that id and returns exactly the
rebuild result of the renderer on that entry. -/
theorem selectShader_absent_present_spec (progOk : WrappedShader → Bool)
    (m : ManagerState) (id : String) :
    (mapGet m.shaders id = none → selectShader progOk m id = (m, false))
    ∧ (∀ sh, mapGet m.shaders id = some sh →
        (selectShader progOk m id).1.currentShaderId = some id
        ∧ (selectShader progOk m id).2 = (loadShader progOk m.renderer sh.code).2) := by
  constructor
  · intro h
    simp [selectShader, h]
  · intro sh h
    constructor
    · exact selectShader_cur_found progOk m id sh h
    · simp [selectShader, h]

/-- C3 witness: the selection contract applied at a concrete catalog, for an
absent and for a present id. -/
theorem selectShader_absent_present_witness :
    selectShader (fun _ => true)
      ⟨[("a", ⟨"body", "A", SrcKind.localSrc⟩)], none, ⟨none, "", [], 0⟩, 0⟩ "zzz"
      = (⟨[("a", ⟨"body", "A", SrcKind.localSrc⟩)], none, ⟨none, "", [], 0⟩, 0⟩, false)
    ∧ (selectShader (fun _ => true)
        ⟨[("a", ⟨"body", "A", SrcKind.localSrc⟩)], none, ⟨none, "", [], 0⟩, 0⟩
        "a").1.currentShaderId = some "a" :=
  ⟨(selectShader_absent_present_spec (fun _ => true)
      ⟨[("a", ⟨"body", "A", SrcKind.localSrc⟩)], none, ⟨none, "", [], 0⟩, 0⟩ "zzz").1
      (by decide),
   ((selectShader_absent_present_spec (fun _ => true)
      ⟨[("a", ⟨"body", "A", SrcKind.localSrc⟩)], none, ⟨none, "", [], 0⟩, 0⟩ "a").2
      ⟨"body", "A", SrcKind.localSrc⟩ (by decide)).1⟩

/-- C1: when the rebuild of a newly selected shader fails, the selection call
returns failure, the previously compiled program is not deleted and remains
the render target, while the current selection id still updates to the newly
selected id; moreover a program handle is ever deleted by a rebuild only when
that rebuild succeeded and installed the freshly created replacement. -/
theorem selectShader_rebuildFailure_keepsProgram (progOk : WrappedShader → Bool)
    (m : ManagerState) (id : String) (sh : ShaderEntry)
    (hfind : mapGet m.shaders id = some sh)
    (hfail : progOk (wrapShadertoyShader sh.code) = false) :
    (selectShader progOk m id).2 = false
    ∧ renderTarget (selectShader progOk m id).1.renderer = renderTarget m.renderer
    ∧ (selectShader progOk m id).1.renderer.deleted = m.renderer.deleted
    ∧ (selectShader progOk m id).1.currentShaderId = some id
    ∧ (∀ (r : RendererState) (c : String),
        (loadShader progOk r c).1.deleted ≠ r.deleted →
        (loadShader progOk r c).2 = true
        ∧ (loadShader progOk r c).1.program = some r.nextHandle) := by
  have hload : loadShader progOk m.renderer sh.code = (m.renderer, false) := by
    simp [loadShader, hfail]
  refine ⟨?_, ?_, ?_, ?_, ?_⟩
  · simp [selectShader, hfind, hload]
  · simp [selectShader, hfind, hload]
  · simp [selectShader, hfind, hload]
  · exact selectShader_cur_found progOk m id sh hfind
  · intro r c hdel
    by_cases hp : progOk (wrapShadertoyShader c) = true
    · constructor
      · simp [loadShader, hp]
      · simp [loadShader, hp]
    · exfalso
      apply hdel
      simp [loadShader, Bool.eq_false_iff.mpr hp]

/-- C1 witness: the failure-retention theorem applied at a concrete state
with a live program handle and an always-failing compile oracle. -/
theorem selectShader_rebuildFailure_witness :
    (selectShader (fun _ => false)
      ⟨[("a", ⟨"bad", "A", SrcKind.localSrc⟩)], some "z", ⟨some 7, "old", [], 8⟩, 0⟩
      "a").2 = false
    ∧ (selectShader (fun _ => false)
        ⟨[("a", ⟨"bad", "A", SrcKind.localSrc⟩)], some "z", ⟨some 7, "old", [], 8⟩, 0⟩
        "a").1.renderer.deleted = []
    ∧ (selectShader (fun _ => false)
        ⟨[("a", ⟨"bad", "A", SrcKind.localSrc⟩)], some "z", ⟨some 7, "old", [], 8⟩, 0⟩
        "a").1.currentShaderId = some "a" := by
  have h := selectShader_rebuildFailure_keepsProgram (fun _ => false)
    ⟨[("a", ⟨"bad", "A", SrcKind.localSrc⟩)], some "z", ⟨some 7, "old", [], 8⟩, 0⟩
    "a" ⟨"bad", "A", SrcKind.localSrc⟩ (by decide) rfl
  exact ⟨h.1, h.2.2.1, h.2.2.2.1⟩

/-- C2 counterexample: a reconciliation pass that adds one new file to a
catalog holding only the builtin entry emits two list-changed notifications
(one from `addShader`, one terminal), not exactly one. -/
theorem reconcile_singleNotification_counterexample :
    (loadShadersFromDirectory (fun _ => some "void") (fun _ => true) ["a.glsl"]
        ⟨[("default", ⟨"code0", "Default Rainbow", SrcKind.localSrc⟩)], some "default",
          ⟨some 0, "code0", [], 1⟩, 0⟩).notifyCount = 2
    ∧ ¬((loadShadersFromDirectory (fun _ => some "void") (fun _ => true) ["a.glsl"]
        ⟨[("default", ⟨"code0", "Default Rainbow", SrcKind.localSrc⟩)], some "default",
          ⟨some 0, "code0", [], 1⟩, 0⟩).notifyCount = 1) := by
  constructor <;> decide

/-- C2 (amended): a reconciliation pass emits one list-changed notification
per file it newly adds (via `addShader`) plus one terminal notification when
at least one file was added, rather than exactly one in total: starting from
a catalog with no directory entries, a current selection and a total read
oracle, a pass over `files` emits `files.length` notifications plus the
terminal one when `files` is nonempty. -/
theorem reconcile_notification_count (rd : String → Option String)
    (progOk : WrappedShader → Bool) (files : List String) (m : ManagerState)
    (c : String)
    (hnodir : ∀ e ∈ m.shaders, isDirId e.1 = false)
    (hcur : m.currentShaderId = some c)
    (hrd : ∀ p, (rd p).isSome = true) :
    (loadShadersFromDirectory rd progOk files m).notifyCount
      = m.notifyCount + files.length + (if files.isEmpty then 0 else 1) := by
  have hpr := pruneShaders_no_dir files m.shaders m.currentShaderId hnodir
  have htriv : ∀ p ∈ files, p ∉ ([] : List String) := by
    intro p _ h
    simp at h
  obtain ⟨hcount, hflag⟩ := addNewShaders_count rd [] hrd files m htriv
  have hacur := addNewShaders_cur rd [] files m
  have hremoved : ((addNewShaders rd [] m files).1.shaders.any
      (fun e => isDirId e.1 && !(decide (dropFile e.1 ∈ files)))) = false := by
    rw [List.any_eq_false]
    intro e he
    rcases addNewShaders_mem rd [] files m e he with hin | ⟨p, hp1, hp2⟩
    · simp [hnodir e hin]
    · have hdf : dropFile e.1 ∈ files := by
        rw [hp2, dropFile_append]
        exact hp1
      simp [hdf]
  have hmid : reconcilePass rd files m =
      (if (addNewShaders rd [] m files).2 then
        { (addNewShaders rd [] m files).1 with
          notifyCount := (addNewShaders rd [] m files).1.notifyCount + 1 }
      else (addNewShaders rd [] m files).1) := by
    simp only [reconcilePass, hpr]
    rw [hremoved]
    simp
  have hfinalcur : (reconcilePass rd files m).currentShaderId = some c := by
    rw [hmid]
    split
    · simpa [hacur] using hcur
    · rw [hacur]
      exact hcur
  have hsel : loadShadersFromDirectory rd progOk files m = reconcilePass rd files m := by
    unfold loadShadersFromDirectory
    exact autoSelectFirst_some progOk _ c hfinalcur
  rw [hsel, hmid]
  cases files with
  | nil =>
    simp [addNewShaders]
  | cons f fs =>
    rw [if_pos (by rw [hflag]; simp)]
    dsimp only
    rw [hcount]
    simp

/-- C2 witness: the amended notification count applied at a concrete pass
adding two files, yielding three notifications. -/
theorem reconcile_notification_count_witness :
    (loadShadersFromDirectory (fun _ => some "x") (fun _ => true) ["a.glsl", "b.glsl"]
        ⟨[("default", ⟨"c0", "D", SrcKind.localSrc⟩)], some "default",
          ⟨some 0, "c0", [], 1⟩, 0⟩).notifyCount
      = 0 + (["a.glsl", "b.glsl"] : List String).length
        + (if (["a.glsl", "b.glsl"] : List String).isEmpty then 0 else 1) :=
  reconcile_notification_count (fun _ => some "x") (fun _ => true) ["a.glsl", "b.glsl"]
    ⟨[("default", ⟨"c0", "D", SrcKind.localSrc⟩)], some "default", ⟨some 0, "c0", [], 1⟩, 0⟩
    "default" (by decide) rfl (fun _ => rfl)

/-- C4 counterexample: a directory-backed catalog entry whose id contains the
substring `shadertoy-` (as happens for a watched file named
`shadertoy-abc.glsl`) is not removed by a reconciliation pass even though its
backing file is absent from the watched-file list, contradicting the claim
that every entry with an absent backing file is removed. -/
theorem reconcile_removal_counterexample :
    (mapGet (loadShadersFromDirectory (fun _ => none) (fun _ => true) []
        ⟨[("file-shadertoy-abc.glsl", ⟨"x", "n", SrcKind.localSrc⟩)], none,
          ⟨none, "", [], 0⟩, 0⟩).shaders
      "file-shadertoy-abc.glsl").isSome = true := by
  decide

/-- C4 (amended): in a reconciliation pass, every catalog entry that the
directory test recognises (id starting with `file-` and, as the code
additionally requires, not containing `shadertoy-`) whose backing file is
absent from the watched list is removed; if the current selection was such an
entry the current id is nulled by the pass; afterwards, if nothing is
selected and at least one entry remains, the first entry in catalog order is
auto-selected; and the invariant that a non-null current id keys an existing
entry is preserved. -/
theorem reconcile_removal_spec (rd : String → Option String)
    (progOk : WrappedShader → Bool) (files : List String) (m : ManagerState)
    (hinv : currentValid m) :
    (∀ id, isDirId id = true → dropFile id ∉ files →
        mapGet (loadShadersFromDirectory rd progOk files m).shaders id = none)
    ∧ (∀ c, m.currentShaderId = some c → isDirId c = true → dropFile c ∉ files →
        (reconcilePass rd files m).currentShaderId = none)
    ∧ (∀ (e : String × ShaderEntry) (tl : List (String × ShaderEntry)),
        (reconcilePass rd files m).currentShaderId = none →
        (reconcilePass rd files m).shaders = e :: tl →
        (loadShadersFromDirectory rd progOk files m).currentShaderId = some e.1)
    ∧ currentValid (loadShadersFromDirectory rd progOk files m) := by
  obtain ⟨hsh, hcu⟩ := reconcilePass_shaders_cur rd files m
  have hshf : (loadShadersFromDirectory rd progOk files m).shaders
      = (reconcilePass rd files m).shaders := by
    simp only [loadShadersFromDirectory]
    exact autoSelectFirst_shaders progOk _
  refine ⟨?_, ?_, ?_, ?_⟩
  · intro id hdir hnot
    have hforall : ∀ p ∈ files, "file-" ++ p ≠ id := by
      intro p hp heq
      apply hnot
      rw [← heq, dropFile_append]
      exact hp
    rw [hshf, hsh, addNewShaders_mapGet rd _ id files _ hforall]
    dsimp only
    exact pruneShaders_mapGet_none files m.shaders m.currentShaderId id hdir hnot
  · intro c hc hdir hnot
    have hne : mapGet m.shaders c ≠ none := by
      simp only [currentValid, hc] at hinv
      exact hinv
    obtain ⟨v, hv⟩ := (mapGet_ne_none_iff m.shaders c).mp hne
    rw [hcu, addNewShaders_cur]
    dsimp only
    exact pruneShaders_cur_removed files m.shaders m.currentShaderId c hc hdir hnot ⟨v, hv⟩
  · intro e tl hnone hcons
    simp only [loadShadersFromDirectory]
    exact autoSelectFirst_none_cons progOk _ e tl hnone hcons
  · cases hfc : (reconcilePass rd files m).currentShaderId with
    | some c2 =>
      have hauto : loadShadersFromDirectory rd progOk files m = reconcilePass rd files m := by
        simp only [loadShadersFromDirectory]
        exact autoSelectFirst_some progOk _ c2 hfc
      have hprcur : (pruneShaders files m.shaders m.currentShaderId).cur = some c2 := by
        have := hfc
        rw [hcu, addNewShaders_cur] at this
        exact this
      have hne2 : mapGet (reconcilePass rd files m).shaders c2 ≠ none := by
        rcases pruneShaders_cur_cases files m.shaders m.currentShaderId c2 hprcur with
          ⟨v, hv⟩ | ⟨h1, h2⟩
        · rw [hsh]
          apply addNewShaders_mapGet_ne_none
          dsimp only
          exact (mapGet_ne_none_iff _ c2).mpr ⟨v, hv⟩
        · exfalso
          have hne : mapGet m.shaders c2 ≠ none := by
            simp only [currentValid, h1] at hinv
            exact hinv
          obtain ⟨v, hv⟩ := (mapGet_ne_none_iff m.shaders c2).mp hne
          exact h2 v hv
      simp only [currentValid, hauto, hfc]
      exact hne2
    | none =>
      cases hfs : (reconcilePass rd files m).shaders with
      | nil =>
        have hfin : (loadShadersFromDirectory rd progOk files m).currentShaderId = none := by
          simp only [loadShadersFromDirectory, autoSelectFirst, hfc, hfs]
        simp only [currentValid, hfin]
      | cons e tl =>
        have hcur2 : (loadShadersFromDirectory rd progOk files m).currentShaderId
            = some e.1 := by
          simp only [loadShadersFromDirectory]
          exact autoSelectFirst_none_cons progOk _ e tl hfc hfs
        obtain ⟨id0, e0⟩ := e
        simp only [currentValid, hcur2]
        rw [hshf, hfs]
        simp [mapGet]

/-- C4 witness: the removal specification applied to a concrete catalog whose
selected directory entry lost its backing file. -/
theorem reconcile_removal_spec_witness :
    mapGet (loadShadersFromDirectory (fun _ => none) (fun _ => true) []
        ⟨[("file-a.glsl", ⟨"x", "a", SrcKind.localSrc⟩),
          ("default", ⟨"y", "D", SrcKind.localSrc⟩)], some "file-a.glsl",
          ⟨none, "", [], 0⟩, 0⟩).shaders "file-a.glsl" = none
    ∧ (reconcilePass (fun _ => none) []
        ⟨[("file-a.glsl", ⟨"x", "a", SrcKind.localSrc⟩),
          ("default", ⟨"y", "D", SrcKind.localSrc⟩)], some "file-a.glsl",
          ⟨none, "", [], 0⟩, 0⟩).currentShaderId = none := by
  have h := reconcile_removal_spec (fun _ => none) (fun _ => true) []
    ⟨[("file-a.glsl", ⟨"x", "a", SrcKind.localSrc⟩),
      ("default", ⟨"y", "D", SrcKind.localSrc⟩)], some "file-a.glsl",
      ⟨none, "", [], 0⟩, 0⟩ (by simp [currentValid, mapGet])
  exact ⟨h.1 "file-a.glsl" (by decide) (by simp),
    h.2.1 "file-a.glsl" rfl (by decide) (by simp)⟩
